import Mathlib

/-!
Verification of the lumen CLI (src/main.rs) against its specification.
The repository ships `main.rs`; the `provider`, `command`, `error` and
`git_entity` modules are declared there but their sources are not part of
the checked tree, so those parts are modelled from the specification and
marked as such in their doc comments.
-/

namespace Lumen

/-- The provider variants, from `enum ProviderType` in main.rs
(Openai, Phind, Groq, Claude, Ollama). -/
inductive ProviderType
  | openai
  | phind
  | groq
  | claude
  | ollama
deriving DecidableEq, Repr

/-- Modelled from the spec: the error taxonomy of §7 (the `error` module is
not under the checked sources). `invalidArguments` matches the
`LumenError::InvalidArguments` constructor used in main.rs. -/
inductive LumenError
  | invalidArguments (msg : String)
  | providerConfig (msg : String)
  | gitEntity (msg : String)
  | network (msg : String)
  | providerProtocol (msg : String)
deriving DecidableEq, Repr

/- ### Streaming-response parsing (ProviderClient.parse_stream_chunk) -/

/-- Modelled from the spec: per-variant decoding of one complete framed
line into an optional text fragment (the `provider` module is not under
the checked sources).  The SSE-style variants use "data: " framing with a
"[DONE]" sentinel terminating the stream; Ollama is line-delimited JSON
where each non-empty line carries a fragment.  Lines that do not match the
framing produce no fragment. -/
def decodeLine (v : ProviderType) (line : List Char) : Option String :=
  match v with
  | .ollama => if line = [] then none else some (String.mk line)
  | _ =>
      if line.take 6 = "data: ".toList then
        let payload := line.drop 6
        if payload = "[DONE]".toList then none else some (String.mk payload)
      else none

/-- Split a chunk of raw characters into the complete lines it closes
(given `buf`, the incomplete line buffered from previous chunks) and the
new trailing incomplete line.  A partial line at a chunk boundary is kept
in the buffer, never emitted. -/
def feedChars (buf : List Char) : List Char → List (List Char) × List Char
  | [] => ([], buf)
  | c :: rest =>
      if c = '\n' then
        let r := feedChars [] rest
        (buf :: r.1, r.2)
      else feedChars (buf ++ [c]) rest

/-- Modelled from the spec: `parse_stream_chunk(raw_bytes)` for variant
`v`, with `buf` the bytes of the incomplete line buffered from previous
chunks.  Returns the fragments emitted for this chunk and the new buffer:
complete lines are decoded per variant, a malformed or partial line at a
chunk boundary is buffered and combined with the next chunk. -/
def parse_stream_chunk (v : ProviderType) (buf : List Char) (chunk : List Char) :
    List String × List Char :=
  let r := feedChars buf chunk
  (r.1.filterMap (decodeLine v), r.2)

/-- Feed a sequence of raw chunks through `parse_stream_chunk` one at a
time, threading the line buffer, and collect all emitted fragments in
order. -/
def parseChunks (v : ProviderType) (buf : List Char) :
    List (List Char) → List String × List Char
  | [] => ([], buf)
  | c :: cs =>
      let r := parse_stream_chunk v buf c
      let r' := parseChunks v r.2 cs
      (r.1 ++ r'.1, r'.2)

theorem feedChars_append (a b buf : List Char) :
    feedChars buf (a ++ b) =
      ((feedChars buf a).1 ++ (feedChars (feedChars buf a).2 b).1,
        (feedChars (feedChars buf a).2 b).2) := by
  induction a generalizing buf with
  | nil => simp [feedChars]
  | cons c rest ih =>
      by_cases hc : c = '\n'
      · simp [feedChars, hc, ih]
      · simp [feedChars, hc, ih]

theorem parse_stream_chunk_append (v : ProviderType) (a b buf : List Char) :
    parse_stream_chunk v buf (a ++ b) =
      ((parse_stream_chunk v buf a).1 ++
          (parse_stream_chunk v (parse_stream_chunk v buf a).2 b).1,
        (parse_stream_chunk v (parse_stream_chunk v buf a).2 b).2) := by
  simp [parse_stream_chunk, feedChars_append]

theorem parseChunks_join (v : ProviderType) (chunks : List (List Char))
    (buf : List Char) :
    parseChunks v buf chunks = parse_stream_chunk v buf chunks.flatten := by
  induction chunks generalizing buf with
  | nil => simp [parseChunks, parse_stream_chunk, feedChars]
  | cons c cs ih =>
      simp only [parseChunks, List.flatten_cons, ih, parse_stream_chunk_append]

/- ### Git entities (declared in main.rs, resolved by the external
version-control collaborator) -/

/-- A commit: hash, author, message and patch text (spec §3, used by
`GitEntity::Commit(GitCommit::new(sha)?)` in main.rs). -/
structure GitCommit where
  sha : String
  author : String
  message : String
  patch : String
deriving DecidableEq, Repr

/-- A diff: patch text plus the staged/working-tree flag (spec §3, used by
`GitEntity::Diff(GitDiff::new(staged)?)` in main.rs). -/
structure GitDiff where
  staged : Bool
  patch : String
deriving DecidableEq, Repr

/-- `enum GitEntity` — tagged union of Commit and Diff. -/
inductive GitEntity
  | commit (c : GitCommit)
  | diff (d : GitDiff)
deriving DecidableEq, Repr

/- ### Command-line interface (struct Cli, enum Commands in main.rs) -/

/-- `enum Commands` from main.rs: Explain (positional sha, --diff,
--staged, --query), List, Draft (--context). -/
inductive Commands
  | explain (sha : Option String) (diff : Bool) (staged : Bool) (query : Option String)
  | list
  | draft (context : Option String)
deriving DecidableEq, Repr

/-- `struct Cli` from main.rs after argument parsing: resolved provider,
optional API key, optional model override, and the subcommand. -/
structure Cli where
  provider : ProviderType
  apiKey : Option String
  model : Option String
  command : Commands
deriving DecidableEq, Repr

/-- The raw invocation before clap resolves it: each configuration input
may arrive from a command-line flag or an environment variable
(`env("LUMEN_AI_PROVIDER")`, `env = "LUMEN_API_KEY"`,
`env = "LUMEN_AI_MODEL"` in main.rs). -/
structure RawArgs where
  providerFlag : Option ProviderType
  providerEnv : Option ProviderType
  apiKeyFlag : Option String
  apiKeyEnv : Option String
  modelFlag : Option String
  modelEnv : Option String
  command : Commands
deriving DecidableEq, Repr

/-- A rejection by the argument parser itself (clap usage error); the
process exits with code 2 before `run` is entered. -/
inductive CliError
  | usage (msg : String)
deriving DecidableEq, Repr

/-- clap binding for one `#[arg(..., env = ...)]` option: the
command-line flag takes precedence over the environment variable. -/
def resolveOpt (flag env : Option α) : Option α :=
  flag.orElse (fun _ => env)

/-- clap binding of the provider argument: flag, else environment
variable, else `default_value = "phind"` (main.rs lines 16-23). -/
def resolveProvider (flag env : Option ProviderType) : ProviderType :=
  (resolveOpt flag env).getD .phind

/-- clap argument-group semantics for `#[arg(group = "target")]` on
Explain's `sha` and `--diff` (main.rs lines 47-63): at most one member of
the group may be given, otherwise parsing fails with a usage error. -/
def checkGroups : Commands → Except CliError Commands
  | .explain sha diff staged query =>
      if sha.isSome && diff then
        .error (.usage "the argument [SHA] cannot be used with --diff")
      else .ok (.explain sha diff staged query)
  | c => .ok c

/-- `Cli::parse()`: resolve each option (flag over environment over
default) and enforce the declared argument groups. -/
def Cli.parse (raw : RawArgs) : Except CliError Cli := do
  let cmd ← checkGroups raw.command
  .ok ⟨resolveProvider raw.providerFlag raw.providerEnv,
    resolveOpt raw.apiKeyFlag raw.apiKeyEnv,
    resolveOpt raw.modelFlag raw.modelEnv, cmd⟩

/- ### Provider construction (provider::LumenProvider::new) -/

/-- Modelled from the spec: which variants require an API key (the
`provider` module is not under the checked sources).  Per §6 the
authentication convention is a bearer token or API-key header for the
hosted backends and none for the fully local backend; §8 fixes Claude as
requiring a key and Ollama as requiring none.  Phind is the default
variant while the key flag is optional, so it requires no key; OpenAI and
Groq are hosted header-authenticated backends and require one. -/
def requiresApiKey : ProviderType → Bool
  | .openai => true
  | .groq => true
  | .claude => true
  | .phind => false
  | .ollama => false

/-- The constructed provider: variant plus the configuration it captured. -/
structure LumenProvider where
  variant : ProviderType
  apiKey : Option String
  model : Option String
deriving DecidableEq, Repr

/-- Modelled from the spec: `provider::LumenProvider::new(client, provider,
api_key, model)` (called at main.rs line 85).  A variant requiring an API
key fails construction when the key is absent — a construction-time
failure, not a deferred one. -/
def LumenProvider.new (v : ProviderType) (key model : Option String) :
    Except LumenError LumenProvider :=
  if requiresApiKey v && key.isNone then
    .error (.providerConfig "missing API key for the selected provider")
  else .ok ⟨v, key, model⟩

/- ### Prompt building and the provider flow (modelled from the spec) -/

/-- Message roles of a conversation (spec §3). -/
inductive Role
  | system
  | user
  | assistant
deriving DecidableEq, Repr

/-- One role-tagged message of a conversation (spec §3). -/
structure Message where
  role : Role
  text : String
deriving DecidableEq, Repr

/-- The patch text a git entity exposes to the prompt layer. -/
def GitEntity.patch : GitEntity → String
  | .commit c => c.patch
  | .diff d => d.patch

/-- Modelled from the spec: PromptBuilder for Explain (§4.2) — system
message fixing the role, then a user message embedding the patch text
verbatim with the optional question appended. -/
def buildExplainConversation (entity : GitEntity) (query : Option String) :
    List Message :=
  [⟨.system, "explain this change"⟩,
    ⟨.user, GitEntity.patch entity ++
      (match query with
        | some q => "\n" ++ q
        | none => "")⟩]

/-- Modelled from the spec: PromptBuilder for Draft (§4.2) — system
message instructing a conventional commit message, then a user message
embedding the staged diff plus the optional context. -/
def buildDraftConversation (patch : String) (context : Option String) :
    List Message :=
  [⟨.system, "generate a conventional commit message"⟩,
    ⟨.user, patch ++
      (match context with
        | some c => "\n" ++ c
        | none => "")⟩]

/-- One HTTP request issued to a backend, recorded so that "no network
call is made" is a statement about the request trace. -/
structure NetworkRequest where
  conversation : List Message
deriving DecidableEq, Repr

/-- The external collaborators of spec §6: commit lookup by hash, current
diff retrieval, the interactive commit picker, and the streaming backend
(its answer as the fragment sequence it would emit). -/
structure Externals where
  lookupCommit : String → Except LumenError GitCommit
  getDiff : Bool → Except LumenError GitDiff
  pickCommit : Except LumenError String
  backend : List Message → Except LumenError (List String)

instance {ε α : Type} [DecidableEq ε] [DecidableEq α] :
    DecidableEq (Except ε α) := fun a b =>
  match a, b with
  | .ok x, .ok y =>
      if h : x = y then .isTrue (by rw [h]) else .isFalse (by simp [h])
  | .error x, .error y =>
      if h : x = y then .isTrue (by rw [h]) else .isFalse (by simp [h])
  | .ok _, .error _ => .isFalse (by simp)
  | .error _, .ok _ => .isFalse (by simp)

/-- Outcome of `run`: its result plus everything written to standard
output and the network requests issued. -/
structure RunResult where
  result : Except LumenError Unit
  stdout : List String
  requests : List NetworkRequest
deriving DecidableEq, Repr

/-- Modelled from the spec: the provider flow (§4.1, §4.3) — issue one
streaming request, aggregate the returned fragments in arrival order into
the final answer, or propagate the first error. -/
def providerFlow (ext : Externals) (conv : List Message) :
    Except LumenError String × List NetworkRequest :=
  match ext.backend conv with
  | .ok frags => (.ok (String.join frags), [⟨conv⟩])
  | .error e => (.error e, [⟨conv⟩])

/-- Resolution of the git entity in `run`'s Explain arm (main.rs lines
95-103): `--diff` selects the current diff (staged or not), otherwise an
explicit sha selects a commit, otherwise InvalidArguments. -/
def resolveGitEntity (ext : Externals) (sha : Option String)
    (diff staged : Bool) : Except LumenError GitEntity :=
  if diff then
    (ext.getDiff staged).map .diff
  else
    match sha with
    | some s => (ext.lookupCommit s).map .commit
    | none =>
        .error (.invalidArguments "`explain` expects SHA-1 or --diff to be present")

/-- Modelled from the spec: `command.execute(CommandType::Explain ...)` —
build the conversation, run the provider flow, print the explanation. -/
def executeExplain (ext : Externals) (entity : GitEntity)
    (query : Option String) : RunResult :=
  match providerFlow ext (buildExplainConversation entity query) with
  | (.ok answer, reqs) => ⟨.ok (), [answer], reqs⟩
  | (.error e, reqs) => ⟨.error e, [], reqs⟩

/-- Modelled from the spec: `command.execute(CommandType::Draft ...)` —
require a non-empty staged diff (fail with InvalidArguments if empty,
before any network call), else build the conversation, run the provider
flow and print the drafted message. -/
def executeDraft (ext : Externals) (context : Option String) : RunResult :=
  match ext.getDiff true with
  | .error e => ⟨.error e, [], []⟩
  | .ok d =>
      if d.patch = "" then
        ⟨.error (.invalidArguments "no staged changes to draft a commit message from"),
          [], []⟩
      else
        match providerFlow ext (buildDraftConversation d.patch context) with
        | (.ok answer, reqs) => ⟨.ok (), [answer], reqs⟩
        | (.error e, reqs) => ⟨.error e, [], reqs⟩

/-- Modelled from the spec: `command.execute(CommandType::List)` —
delegate to the interactive picker for a commit hash, then behave as
Explain on that commit. -/
def executeList (ext : Externals) : RunResult :=
  match ext.pickCommit with
  | .error e => ⟨.error e, [], []⟩
  | .ok sha =>
      match ext.lookupCommit sha with
      | .error e => ⟨.error e, [], []⟩
      | .ok c => executeExplain ext (.commit c) none

/-- `run()` from main.rs lines 82-118: construct the provider first (its
failure aborts before any subcommand executes), then dispatch on the
subcommand. -/
def run (ext : Externals) (cli : Cli) : RunResult :=
  match LumenProvider.new cli.provider cli.apiKey cli.model with
  | .error e => ⟨.error e, [], []⟩
  | .ok _provider =>
      match cli.command with
      | .explain sha diff staged query =>
          match resolveGitEntity ext sha diff staged with
          | .error e => ⟨.error e, [], []⟩
          | .ok entity => executeExplain ext entity query
      | .list => executeList ext
      | .draft context => executeDraft ext context

/- ### Top-level process behaviour (main.rs lines 74-80) -/

/-- The visual error marker main.rs prepends: `"\x1b[91m\rerror:\x1b[0m "`. -/
def errorMarker : String := "\x1b[91m\rerror:\x1b[0m "

/-- Modelled from the spec: the user-facing rendering of each error
(the `error` module is not under the checked sources); the message is
passed through unmodified in content. -/
def LumenError.display : LumenError → String
  | .invalidArguments m => m
  | .providerConfig m => m
  | .gitEntity m => m
  | .network m => m
  | .providerProtocol m => m

/-- The single line main.rs writes to the error stream on failure:
`eprintln!("\x1b[91m\rerror:\x1b[0m {e}")`. -/
def errorLine (e : LumenError) : String :=
  errorMarker ++ LumenError.display e

/-- Observable outcome of the whole process: exit code, both output
streams, the network-request trace, and which `LumenError` (if any)
reached the top-level handler. -/
structure ProcResult where
  exitCode : Nat
  stdout : List String
  stderr : List String
  requests : List NetworkRequest
  lumenErr : Option LumenError
deriving DecidableEq, Repr

/-- `main()` from main.rs lines 74-80, given `run`'s outcome: on `Err(e)`
print one error line to stderr and `process::exit(1)`; otherwise exit 0. -/
def mainFromRun (r : RunResult) : ProcResult :=
  match r.result with
  | .ok _ => ⟨0, r.stdout, [], r.requests, none⟩
  | .error e => ⟨1, r.stdout, [errorLine e], r.requests, some e⟩

/-- The whole invocation: `Cli::parse()` (clap exits with code 2 and its
usage message on a group violation, before `run` is entered), then
`main`'s handling of `run`'s outcome. -/
def mainProc (ext : Externals) (raw : RawArgs) : ProcResult :=
  match Cli.parse raw with
  | .error (.usage msg) => ⟨2, [], [msg], [], none⟩
  | .ok cli => mainFromRun (run ext cli)

/- ### Concrete external collaborators used by witnesses -/

/-- Externals where every git operation fails and the backend answers
with no fragments; used where the claim's conclusion must not depend on
the collaborators at all. -/
def extNone : Externals :=
  ⟨fun _ => .error (.gitEntity "commit not found"),
    fun _ => .error (.gitEntity "no diff"),
    .error (.gitEntity "no selection"),
    fun _ => .ok []⟩

/-- Externals where the staged diff exists but is empty. -/
def extEmptyDiff : Externals :=
  ⟨fun _ => .error (.gitEntity "commit not found"),
    fun st => .ok ⟨st, ""⟩,
    .error (.gitEntity "no selection"),
    fun _ => .ok []⟩

/-- Externals for a successful end-to-end scenario: a commit and a
non-empty diff exist, the backend streams two fragments. -/
def extOk : Externals :=
  ⟨fun s => .ok ⟨s, "alice", "initial", "+foo\n-bar"⟩,
    fun st => .ok ⟨st, "+foo\n-bar"⟩,
    .ok "abc123",
    fun _ => .ok ["feat: ", "update foo"]⟩

/- ### Claims -/

/-- Claim C1: for every provider variant and every way of splitting a
backend response body into raw byte chunks (including splits in the
middle of a line), feeding the chunks to `parse_stream_chunk` one at a
time and concatenating all emitted fragments in order yields exactly the
same text as parsing the entire body as a single chunk. -/
theorem c1_chunk_boundary_invariance (v : ProviderType)
    (chunks : List (List Char)) :
    (parseChunks v [] chunks).1 = (parse_stream_chunk v [] chunks.flatten).1 ∧
    String.join (parseChunks v [] chunks).1 =
      String.join (parse_stream_chunk v [] chunks.flatten).1 := by
  have h := parseChunks_join v chunks []
  exact ⟨by rw [h], by rw [h]⟩

/-- Claim C2: for every variant that requires an API key, constructing
the provider with `api_key` absent fails at startup with a
provider-configuration error, before any subcommand executes and before
any git-entity resolution or network call (the outcome is the same for
every choice of external collaborators and every subcommand, with no
output produced and no request issued). -/
theorem c2_missing_key_fails_at_startup (ext : Externals) (cli : Cli)
    (hreq : requiresApiKey cli.provider = true) (hkey : cli.apiKey = none) :
    run ext cli =
      ⟨.error (.providerConfig "missing API key for the selected provider"),
        [], []⟩ := by
  unfold run
  simp [LumenProvider.new, hreq, hkey]

theorem c2_missing_key_witness :
    run extNone ⟨.claude, none, none, .list⟩ =
      ⟨.error (.providerConfig "missing API key for the selected provider"),
        [], []⟩ :=
  c2_missing_key_fails_at_startup extNone ⟨.claude, none, none, .list⟩ rfl rfl

/-- Claim C3: constructing the provider with variant Claude and no API
key fails with a provider-configuration error, while constructing it with
variant Ollama and no API key succeeds. -/
theorem c3_claude_fails_ollama_succeeds :
    LumenProvider.new .claude none none =
      .error (.providerConfig "missing API key for the selected provider") ∧
    LumenProvider.new .ollama none none = .ok ⟨.ollama, none, none⟩ :=
  ⟨rfl, rfl⟩

/-- Claim C4: for every invocation of the Explain command in which
neither a commit SHA nor the --diff flag is given (and provider
construction itself succeeds), the program fails with an InvalidArguments
error, before any network call is made and independently of the external
collaborators. -/
theorem c4_explain_no_selector (ext : Externals) (p : ProviderType)
    (key model : Option String) (pr : LumenProvider) (staged : Bool)
    (query : Option String)
    (hp : LumenProvider.new p key model = .ok pr) :
    run ext ⟨p, key, model, .explain none false staged query⟩ =
      ⟨.error (.invalidArguments "`explain` expects SHA-1 or --diff to be present"),
        [], []⟩ := by
  unfold run
  simp [hp, resolveGitEntity]

theorem c4_explain_no_selector_witness :
    run extNone ⟨.phind, none, none, .explain none false false none⟩ =
      ⟨.error (.invalidArguments "`explain` expects SHA-1 or --diff to be present"),
        [], []⟩ :=
  c4_explain_no_selector extNone .phind none none ⟨.phind, none, none⟩
    false none rfl

/-- Concrete invocation giving the Explain command both a commit SHA and
the --diff flag. -/
def rawBoth : RawArgs :=
  ⟨none, none, none, none, none, none,
    .explain (some "abc123") true false none⟩

/-- Claim C5, counterexample: giving Explain both a commit SHA and the
--diff flag is rejected by the argument parser itself — the process exits
with clap's usage error and code 2, no `LumenError` (in particular no
InvalidArguments) ever reaches the top-level handler, and `run` is never
entered. -/
theorem c5_counterexample :
    (mainProc extNone rawBoth).lumenErr = none ∧
    (mainProc extNone rawBoth).exitCode = 2 ∧
    (mainProc extNone rawBoth).requests = [] := by
  refine ⟨rfl, rfl, rfl⟩

/-- Claim C5, amended: for every invocation of the Explain command in
which both a commit SHA and the --diff flag are given, the invocation is
rejected by the command-line parser (the two selectors share the clap
argument group "target", so they are mutually exclusive): the process
exits with code 2 and the parser's usage message before `run` executes,
so no `LumenError` is produced and no network call is made. -/
theorem c5_both_selectors_rejected_by_arg_group (ext : Externals)
    (raw : RawArgs) (sha : String) (staged : Bool) (query : Option String)
    (hc : raw.command = .explain (some sha) true staged query) :
    mainProc ext raw =
      ⟨2, [], ["the argument [SHA] cannot be used with --diff"], [], none⟩ := by
  unfold mainProc Cli.parse
  simp [hc, checkGroups, Bind.bind, Except.bind]

theorem c5_both_selectors_witness :
    mainProc extNone rawBoth =
      ⟨2, [], ["the argument [SHA] cannot be used with --diff"], [], none⟩ :=
  c5_both_selectors_rejected_by_arg_group extNone rawBoth "abc123" false none rfl

/-- Claim C6: for every invocation of the Draft command where the staged
diff is empty (and provider construction succeeds), the program fails
with an InvalidArguments error and no HTTP request is issued. -/
theorem c6_draft_empty_diff (ext : Externals) (p : ProviderType)
    (key model : Option String) (pr : LumenProvider)
    (context : Option String) (d : GitDiff)
    (hp : LumenProvider.new p key model = .ok pr)
    (hd : ext.getDiff true = .ok d) (hemp : d.patch = "") :
    run ext ⟨p, key, model, .draft context⟩ =
      ⟨.error (.invalidArguments "no staged changes to draft a commit message from"),
        [], []⟩ := by
  unfold run executeDraft
  simp [hp, hd, hemp]

theorem c6_draft_empty_diff_witness :
    run extEmptyDiff ⟨.phind, none, none, .draft none⟩ =
      ⟨.error (.invalidArguments "no staged changes to draft a commit message from"),
        [], []⟩ :=
  c6_draft_empty_diff extEmptyDiff .phind none none ⟨.phind, none, none⟩
    none ⟨true, ""⟩ rfl rfl rfl

/-- Claim C7: for every invocation reaching `run`: on success the process
exits with code 0 after printing the final answer to standard output with
nothing on the error stream; on any failure (entity resolution, provider
construction, or the network/protocol flow) it writes exactly one error
line — the error's message prefixed with the visual error marker — to the
error stream and exits with the non-zero code 1. -/
theorem c7_exit_contract (ext : Externals) (cli : Cli) :
    (∀ u, (run ext cli).result = .ok u →
      mainFromRun (run ext cli) =
        ⟨0, (run ext cli).stdout, [], (run ext cli).requests, none⟩) ∧
    (∀ e, (run ext cli).result = .error e →
      mainFromRun (run ext cli) =
        ⟨1, (run ext cli).stdout, [errorLine e], (run ext cli).requests, some e⟩ ∧
      errorLine e = errorMarker ++ LumenError.display e) := by
  constructor
  · intro u h
    unfold mainFromRun
    rw [h]
  · intro e h
    exact ⟨by unfold mainFromRun; rw [h], rfl⟩

theorem c7_exit_contract_witness :
    mainFromRun (run extOk ⟨.phind, none, none, .draft none⟩) =
      ⟨0, (run extOk ⟨.phind, none, none, .draft none⟩).stdout, [],
        (run extOk ⟨.phind, none, none, .draft none⟩).requests, none⟩ :=
  (c7_exit_contract extOk ⟨.phind, none, none, .draft none⟩).1 () rfl

/-- Claim C8: for each of the three configuration inputs (provider
variant, API key, model override), when both a command-line flag and the
corresponding environment variable are supplied, the value from the
command-line flag is the one parsing resolves and hence the one `run`
hands to provider construction. -/
theorem c8_flag_takes_precedence (raw : RawArgs) (cli : Cli)
    (pv : ProviderType) (pe : ProviderType) (kf ke mf me : String)
    (hpf : raw.providerFlag = some pv) (_hpe : raw.providerEnv = some pe)
    (hkf : raw.apiKeyFlag = some kf) (_hke : raw.apiKeyEnv = some ke)
    (hmf : raw.modelFlag = some mf) (_hme : raw.modelEnv = some me)
    (hparse : Cli.parse raw = .ok cli) :
    cli.provider = pv ∧ cli.apiKey = some kf ∧ cli.model = some mf ∧
    LumenProvider.new cli.provider cli.apiKey cli.model =
      LumenProvider.new pv (some kf) (some mf) := by
  unfold Cli.parse at hparse
  cases hcg : checkGroups raw.command with
  | error e =>
      rw [hcg] at hparse
      simp [Bind.bind, Except.bind] at hparse
  | ok cmd =>
      rw [hcg] at hparse
      simp [Bind.bind, Except.bind] at hparse
      rw [← hparse]
      simp [resolveProvider, resolveOpt, hpf, hkf, hmf, Option.orElse]

theorem c8_flag_takes_precedence_witness :
    (⟨.claude, some "flag-key", some "flag-model", Commands.list⟩ : Cli).provider
        = .claude ∧
    (⟨.claude, some "flag-key", some "flag-model", Commands.list⟩ : Cli).apiKey
        = some "flag-key" ∧
    (⟨.claude, some "flag-key", some "flag-model", Commands.list⟩ : Cli).model
        = some "flag-model" ∧
    LumenProvider.new .claude (some "flag-key") (some "flag-model") =
      LumenProvider.new .claude (some "flag-key") (some "flag-model") :=
  c8_flag_takes_precedence
    ⟨some .claude, some .ollama, some "flag-key", some "env-key",
      some "flag-model", some "env-model", .list⟩
    ⟨.claude, some "flag-key", some "flag-model", .list⟩
    .claude .ollama "flag-key" "env-key" "flag-model" "env-model"
    rfl rfl rfl rfl rfl rfl rfl

/-- Claim C9: when neither the --provider flag nor the LUMEN_AI_PROVIDER
environment variable is supplied, the Phind variant is selected as the
provider by default. -/
theorem c9_default_provider_phind (raw : RawArgs) (cli : Cli)
    (hpf : raw.providerFlag = none) (hpe : raw.providerEnv = none)
    (hparse : Cli.parse raw = .ok cli) :
    cli.provider = .phind := by
  unfold Cli.parse at hparse
  cases hcg : checkGroups raw.command with
  | error e =>
      rw [hcg] at hparse
      simp [Bind.bind, Except.bind] at hparse
  | ok cmd =>
      rw [hcg] at hparse
      simp [Bind.bind, Except.bind] at hparse
      rw [← hparse]
      simp [resolveProvider, resolveOpt, hpf, hpe, Option.orElse]

theorem c9_default_provider_phind_witness :
    (⟨.phind, none, none, Commands.list⟩ : Cli).provider = .phind :=
  c9_default_provider_phind
    ⟨none, none, none, none, none, none, .list⟩
    ⟨.phind, none, none, .list⟩ rfl rfl rfl

/-- Claim C10: for every Explain invocation that supplies a commit SHA
(and not --diff), the behaviour is independent of the --staged flag:
running with --staged and without it resolves the same git entity and
yields the same run outcome, and whenever resolution succeeds the entity
is a `GitEntity.commit`. -/
theorem c10_sha_independent_of_staged (ext : Externals) (p : ProviderType)
    (key model : Option String) (sha : String) (query : Option String) :
    run ext ⟨p, key, model, .explain (some sha) false true query⟩ =
      run ext ⟨p, key, model, .explain (some sha) false false query⟩ ∧
    resolveGitEntity ext (some sha) false true =
      resolveGitEntity ext (some sha) false false ∧
    (∀ ent, resolveGitEntity ext (some sha) false true = .ok ent →
      ∃ c, ent = GitEntity.commit c) := by
  refine ⟨rfl, rfl, ?_⟩
  intro ent h
  unfold resolveGitEntity at h
  simp only [Bool.false_eq_true, if_false] at h
  cases hl : ext.lookupCommit sha with
  | error e => rw [hl] at h; simp [Except.map] at h
  | ok c =>
      rw [hl] at h
      simp [Except.map] at h
      exact ⟨c, h.symm⟩

theorem c10_sha_independent_of_staged_witness :
    ∃ c, GitEntity.commit (⟨"abc123", "alice", "initial", "+foo\n-bar"⟩ : GitCommit)
        = GitEntity.commit c :=
  (c10_sha_independent_of_staged extOk .phind none none "abc123" none).2.2
    (GitEntity.commit ⟨"abc123", "alice", "initial", "+foo\n-bar"⟩) rfl

end Lumen
